import Mathlib

/-!
Verification of the NU-Information Exchange relay server (src/server.cpp).

The server keeps a mutex-protected map `active_clients : campus name ↦ ClientInfo`.
`handle_client` performs the registration handshake on the first payload,
then loops handing each payload to `route_tcp_message`, and erases the entry
on disconnect.  `send_udp_broadcast` iterates the map sending one datagram
per entry.  Below, the registration parsing, routing, broadcast fan-out,
the lock/IO discipline and the register/disconnect lifecycle are embedded
as pure Lean functions and a small transition system, and the specification
claims are settled against them.
-/

namespace IES

/-- Payloads and identities are byte strings; we model them as lists of
characters. -/
abbrev Ident := List Char

/-- The character list of a string literal. -/
def chars (s : String) : List Char := s.toList

/-- `s.find(':')` followed by `substr(0, pos)` / `substr(pos + 1)`:
splits at the FIRST colon, `none` when no colon occurs
(server.cpp lines 125-128, 191-199). -/
def splitColon : List Char → Option (List Char × List Char)
  | [] => none
  | c :: cs =>
    if c = ':' then some ([], cs)
    else
      match splitColon cs with
      | none => none
      | some (d, r) => some (c :: d, r)

/-- C-locale `isspace`, as skipped by `std::stoi` before the number. -/
def isSpaceC (c : Char) : Bool :=
  c = ' ' || c = '\t' || c = '\n' || c = '\x0b' || c = '\x0c' || c = '\r'

/-- Value of a run of decimal digits. -/
def digitsToNat (s : List Char) : Nat :=
  s.foldl (fun acc c => acc * 10 + (c.toNat - 48)) 0

/-- Model of `std::stoi` (base 10) as used at server.cpp line 130:
skips leading whitespace, takes an optional sign and then the longest
run of digits (trailing garbage is ignored); fails (`invalid_argument`)
when that run is empty and (`out_of_range`) when the value is outside
the `int` range. -/
def stoiModel (s : List Char) : Option Int :=
  let s1 := s.dropWhile isSpaceC
  let signed : Int × List Char :=
    match s1 with
    | '-' :: t => (-1, t)
    | '+' :: t => (1, t)
    | t => (1, t)
  let ds := signed.2.takeWhile Char.isDigit
  if ds.isEmpty then none
  else
    let v : Int := signed.1 * (digitsToNat ds : Int)
    if v < -2147483648 ∨ 2147483647 < v then none else some v

/-- A Directory entry (struct ClientInfo, server.cpp lines 21-25); the
UDP address is kept as the peer host and the parsed port. -/
structure ClientInfo where
  tcp_socket : Nat
  campus_name : Ident
  udp_host : Nat
  udp_port : Int
deriving DecidableEq

/-- The Directory `active_clients : std::map<std::string, ClientInfo>`,
modelled as an association list with map semantics (each key looked up
by `alookup`, updated by `ainsert`, removed by `aerase`). -/
abbrev Dir := List (Ident × ClientInfo)

/-- `map.find(k)`: first binding of key `k`. -/
def alookup {κ α : Type} [DecidableEq κ] : List (κ × α) → κ → Option α
  | [], _ => none
  | (k, v) :: rest, n => if k = n then some v else alookup rest n

/-- `map.erase(k)`: drop every binding of key `k`. -/
def aerase {κ α : Type} [DecidableEq κ] : List (κ × α) → κ → List (κ × α)
  | [], _ => []
  | (k, v) :: rest, n => if k = n then aerase rest n else (k, v) :: aerase rest n

/-- `map[k] = v`: bind `k` to `v`, replacing any previous binding. -/
def ainsert {κ α : Type} [DecidableEq κ] (d : List (κ × α)) (k : κ) (v : α) :
    List (κ × α) :=
  (k, v) :: aerase d k

/-- The confirmation sent after a successful registration
(server.cpp line 148). -/
def welcomeMsg (name : Ident) : List Char :=
  chars "SERVER: Welcome, " ++ name ++ chars "! TCP and UDP services active."

/-- Outcome of the registration handshake: the Directory afterwards, the
reply sent on the stream (if any), the sockets the handler closed, and
whether `is_registered` ended up true. -/
structure RegResult where
  newDir : Dir
  reply : Option (List Char)
  closedSockets : List Nat
  registered : Bool
deriving DecidableEq

/-- Registration handshake of `handle_client` (server.cpp lines 120-161)
on a first payload: split at the first colon, parse the port with
`std::stoi`; on success insert the entry and send the welcome message,
on any failure close the client socket and leave the Directory alone. -/
def handle_client_register (dir : Dir) (sock host : Nat) (payload : List Char) :
    RegResult :=
  match splitColon payload with
  | none => ⟨dir, none, [sock], false⟩
  | some (campus_name, portSeg) =>
    match stoiModel portSeg with
    | none => ⟨dir, none, [sock], false⟩
    | some udp_port =>
      ⟨ainsert dir campus_name ⟨sock, campus_name, host, udp_port⟩,
       some (welcomeMsg campus_name), [], true⟩

/-- Spec-side predicate (from the words of the claim, for comparison with
the source behaviour): the port segment is a valid positive decimal
integer — nonempty, all digits, value strictly positive. -/
def validPositiveIntSegmentB (s : List Char) : Bool :=
  !s.isEmpty && s.all Char.isDigit && decide (0 < digitsToNat s)

/-- A network output action of the server: a TCP stream write to a socket,
or a UDP datagram to a (host, port) address. -/
inductive Action where
  | tcpSend (sock : Nat) (msg : List Char)
  | udpSend (host : Nat) (port : Int) (msg : List Char)
deriving DecidableEq

/-- The datagrams `send_udp_broadcast` emits: one per Directory entry, to
its registered UDP address, carrying the message
(server.cpp lines 250-266). -/
def broadcastActions (dir : Dir) (msg : List Char) : List Action :=
  dir.map (fun e => Action.udpSend e.2.udp_host e.2.udp_port msg)

/-- The notice sent back to the sender when the destination is not in the
Directory (server.cpp line 230). -/
def notActiveMsg (destination : Ident) : List Char :=
  chars "SERVER: Error: Campus \x27" ++ destination ++
    chars "\x27 is not currently active."

/-- `route_tcp_message` (server.cpp lines 190-235): split the payload at
the first colon (drop it when there is none); on the BROADCAST token fan
out datagrams; otherwise look the destination up and write the routed
message to its socket, or, failing that, write the not-active notice to
the sender's own socket if the sender is still registered.  The function
returns the Directory afterwards (the source never mutates the map here)
and the list of stream/datagram writes performed. -/
def route_tcp_message (dir : Dir) (sender_name full_message : List Char) :
    Dir × List Action :=
  match splitColon full_message with
  | none => (dir, [])
  | some (destination, content) =>
    if destination = chars "BROADCAST" then
      (dir, broadcastActions dir
        (chars "BROADCAST FROM " ++ sender_name ++ chars ": " ++ content))
    else
      match alookup dir destination with
      | some ci =>
        (dir, [Action.tcpSend ci.tcp_socket
          (chars "FROM " ++ sender_name ++ chars ": " ++ content)])
      | none =>
        match alookup dir sender_name with
        | some si => (dir, [Action.tcpSend si.tcp_socket (notActiveMsg destination)])
        | none => (dir, [])

/-- The post-registration receive loop of `handle_client` (server.cpp
lines 163-170): each received payload is handed whole to
`route_tcp_message`; the session continues after every payload. -/
def session_loop : Dir → List Char → List (List Char) → Dir × List Action
  | dir, _, [] => (dir, [])
  | dir, s, m :: ms =>
    ((session_loop (route_tcp_message dir s m).1 s ms).1,
     (route_tcp_message dir s m).2 ++
       (session_loop (route_tcp_message dir s m).1 s ms).2)

/-- Worker for `send_udp_broadcast`: walks the Directory entries, emits
one datagram attempt per entry, and counts successes and failures; the
environment `fails i` says whether the i-th `sendto` call fails. -/
def bcastFrom : List (Ident × ClientInfo) → List Char → (Nat → Bool) → Nat →
    List Action × Nat × Nat
  | [], _, _, _ => ([], 0, 0)
  | (_, ci) :: rest, msg, fails, i =>
    ((Action.udpSend ci.udp_host ci.udp_port msg :: (bcastFrom rest msg fails (i + 1)).1),
     (if fails i then (bcastFrom rest msg fails (i + 1)).2.1
      else (bcastFrom rest msg fails (i + 1)).2.1 + 1),
     (if fails i then (bcastFrom rest msg fails (i + 1)).2.2 + 1
      else (bcastFrom rest msg fails (i + 1)).2.2))

/-- `send_udp_broadcast` (server.cpp lines 241-272): one `sendto` per
Directory entry; a failed send is counted and the loop continues.
Returns the attempted datagram list and the (success, failure) counts. -/
def send_udp_broadcast (dir : Dir) (msg : List Char) (fails : Nat → Bool) :
    List Action × Nat × Nat :=
  bcastFrom dir msg fails 0

/-- Lock/network events of a server function, in program order. -/
inductive Ev where
  | lockAcquire
  | lockRelease
  | netSend
deriving DecidableEq

/-- Number of network sends in a trace. -/
def countSends : List Ev → Nat
  | [] => 0
  | Ev.netSend :: t => countSends t + 1
  | Ev.lockAcquire :: t => countSends t
  | Ev.lockRelease :: t => countSends t

/-- Number of network sends performed while the Directory lock is held,
starting from the given lock state. -/
def countSendsHeld : List Ev → Bool → Nat
  | [], _ => 0
  | Ev.lockAcquire :: t, _ => countSendsHeld t true
  | Ev.lockRelease :: t, _ => countSendsHeld t false
  | Ev.netSend :: t, held => (if held then 1 else 0) + countSendsHeld t held

/-- Lock/IO trace of `send_udp_broadcast` (server.cpp lines 241-272):
`lock_guard` is taken at function entry (line 242), one `sendto` per
Directory entry happens inside the loop (line 253), and the lock is
released at scope exit (line 272). -/
def broadcastTrace (dir : Dir) : List Ev :=
  Ev.lockAcquire :: (List.replicate dir.length Ev.netSend ++ [Ev.lockRelease])

/-- Lock/IO trace of `route_tcp_message` (server.cpp lines 190-235): the
BROADCAST branch returns at line 210 before the lock and delegates to
`send_udp_broadcast`; otherwise `lock_guard` is taken at line 214, the
routed `send` (line 220) or the not-active notice `send` (line 231)
happens under it, and the lock is released at function exit. -/
def routeTrace (dir : Dir) (sender_name full_message : List Char) : List Ev :=
  match splitColon full_message with
  | none => []
  | some (destination, _) =>
    if destination = chars "BROADCAST" then broadcastTrace dir
    else
      Ev.lockAcquire ::
        ((match alookup dir destination with
          | some _ => [Ev.netSend]
          | none =>
            match alookup dir sender_name with
            | some _ => [Ev.netSend]
            | none => []) ++ [Ev.lockRelease])

/-- State of the register/disconnect lifecycle: the Directory projected
to which session owns each entry, and the set of live registered
sessions with the name each registered under. -/
structure SessState where
  dir : List (Ident × Nat)
  active : List (Nat × Ident)
deriving DecidableEq

/-- Lifecycle events: a session's successful registration handshake
(`active_clients[campus_name] = ...`, server.cpp line 143), and a
session's disconnect cleanup (`active_clients.erase(campus_name)`,
server.cpp line 182). -/
inductive SEvent where
  | reg (sid : Nat) (name : Ident)
  | disc (sid : Nat)
deriving DecidableEq

/-- One lifecycle step.  A registration requires a session id not already
live (each connection registers at most once) and map-assigns its name,
silently replacing any previous binding; a disconnect requires a live
session and erases the Directory binding of the NAME the session itself
registered under — exactly what server.cpp line 182 does, whether or not
that binding still belongs to this session. -/
def sstep (st : SessState) : SEvent → Option SessState
  | SEvent.reg sid name =>
    match alookup st.active sid with
    | some _ => none
    | none => some ⟨ainsert st.dir name sid, (sid, name) :: st.active⟩
  | SEvent.disc sid =>
    match alookup st.active sid with
    | none => none
    | some name => some ⟨aerase st.dir name, aerase st.active sid⟩

/-- Run a sequence of lifecycle events. -/
def srun : SessState → List SEvent → Option SessState
  | st, [] => some st
  | st, e :: es =>
    match sstep st e with
    | none => none
    | some st' => srun st' es

/-- Server start: empty Directory, no sessions. -/
def initState : SessState := ⟨[], []⟩

/-- The claimed Directory invariant: an entry binds `name` to session
`sid` exactly when that session is live and registered under `name`. -/
def DirInv (st : SessState) : Prop :=
  ∀ name sid, alookup st.dir name = some sid ↔ (sid, name) ∈ st.active

/-- Each live session registered under exactly one name. -/
def SidInv (st : SessState) : Prop :=
  ∀ sid n1 n2, (sid, n1) ∈ st.active → (sid, n2) ∈ st.active → n1 = n2

/-- Decidable check that along a run every registration uses a name that
is absent from the Directory at that moment (no duplicate-name
registration). -/
def freshRunB : SessState → List SEvent → Bool
  | _, [] => true
  | st, SEvent.reg sid name :: es =>
    (alookup st.dir name).isNone &&
    (match sstep st (SEvent.reg sid name) with
     | none => true
     | some st' => freshRunB st' es)
  | st, SEvent.disc sid :: es =>
    match sstep st (SEvent.disc sid) with
    | none => true
    | some st' => freshRunB st' es

/-! ### Parsing and association-list lemmas -/

theorem splitColon_append (l r : List Char) (h : ':' ∉ l) :
    splitColon (l ++ ':' :: r) = some (l, r) := by
  induction l with
  | nil => simp [splitColon]
  | cons c cs ih =>
    have hc : c ≠ ':' := fun hc => h (by simp [hc])
    have hcs : ':' ∉ cs := fun hm => h (List.mem_cons_of_mem _ hm)
    simp [splitColon, hc, ih hcs]

theorem splitColon_eq_none (l : List Char) (h : ':' ∉ l) :
    splitColon l = none := by
  induction l with
  | nil => simp [splitColon]
  | cons c cs ih =>
    have hc : c ≠ ':' := fun hc => h (by simp [hc])
    have hcs : ':' ∉ cs := fun hm => h (List.mem_cons_of_mem _ hm)
    simp [splitColon, hc, ih hcs]

theorem alookup_aerase {κ α : Type} [DecidableEq κ] (d : List (κ × α)) (k n : κ) :
    alookup (aerase d k) n = if k = n then none else alookup d n := by
  induction d with
  | nil => simp [aerase, alookup]
  | cons p rest ih =>
    obtain ⟨k', v'⟩ := p
    by_cases hk : k' = k
    · subst hk
      by_cases hn : k' = n
      · subst hn; simp [aerase, alookup, ih]
      · simp [aerase, alookup, hn, ih]
    · by_cases hn : k' = n
      · subst hn
        have : ¬ k = k' := fun h => hk h.symm
        simp [aerase, alookup, hk, this]
      · simp [aerase, alookup, hk, hn, ih]

theorem alookup_ainsert {κ α : Type} [DecidableEq κ] (d : List (κ × α)) (k n : κ)
    (v : α) :
    alookup (ainsert d k v) n = if k = n then some v else alookup d n := by
  by_cases hn : k = n
  · subst hn; simp [ainsert, alookup]
  · simp [ainsert, alookup, hn, alookup_aerase]

theorem mem_aerase {κ α : Type} [DecidableEq κ] (d : List (κ × α)) (k : κ)
    (p : κ × α) :
    p ∈ aerase d k ↔ p ∈ d ∧ p.1 ≠ k := by
  induction d with
  | nil => simp [aerase]
  | cons q rest ih =>
    obtain ⟨k', v'⟩ := q
    by_cases hk : k' = k
    · subst hk
      rw [show aerase ((k', v') :: rest) k' = aerase rest k' from by simp [aerase]]
      rw [ih, List.mem_cons]
      constructor
      · rintro ⟨hm, hne⟩; exact ⟨Or.inr hm, hne⟩
      · rintro ⟨hor, hne⟩
        rcases hor with rfl | hm
        · exact absurd rfl hne
        · exact ⟨hm, hne⟩
    · rw [show aerase ((k', v') :: rest) k = (k', v') :: aerase rest k from by
        simp [aerase, hk]]
      rw [List.mem_cons, List.mem_cons, ih]
      constructor
      · rintro (rfl | ⟨hm, hne⟩)
        · exact ⟨Or.inl rfl, hk⟩
        · exact ⟨Or.inr hm, hne⟩
      · rintro ⟨hor, hne⟩
        rcases hor with rfl | hm
        · exact Or.inl rfl
        · exact Or.inr ⟨hm, hne⟩

theorem alookup_some_mem {κ α : Type} [DecidableEq κ] {d : List (κ × α)} {k : κ}
    {v : α} (h : alookup d k = some v) : (k, v) ∈ d := by
  induction d with
  | nil => simp [alookup] at h
  | cons p rest ih =>
    obtain ⟨k', v'⟩ := p
    by_cases hk : k' = k
    · subst hk
      simp [alookup] at h
      subst h
      exact List.mem_cons_self _ _
    · simp [alookup, hk] at h
      exact List.mem_cons_of_mem _ (ih h)

theorem alookup_none_not_mem {κ α : Type} [DecidableEq κ] {d : List (κ × α)}
    {k : κ} (h : alookup d k = none) : ∀ v, (k, v) ∉ d := by
  induction d with
  | nil => simp
  | cons p rest ih =>
    obtain ⟨k', v'⟩ := p
    by_cases hk : k' = k
    · subst hk; simp [alookup] at h
    · simp [alookup, hk] at h
      intro v hm
      rcases List.mem_cons.mp hm with heq | hm'
      · exact hk (congrArg Prod.fst heq).symm
      · exact ih h v hm'

/-! ### Broadcast fan-out lemmas -/

theorem bcastFrom_acts (l : List (Ident × ClientInfo)) (msg : List Char)
    (fails : Nat → Bool) (i : Nat) :
    (bcastFrom l msg fails i).1
      = l.map (fun e => Action.udpSend e.2.udp_host e.2.udp_port msg) := by
  induction l generalizing i with
  | nil => simp [bcastFrom]
  | cons p rest ih =>
    obtain ⟨n, ci⟩ := p
    simp [bcastFrom, ih]

theorem bcastFrom_counts (l : List (Ident × ClientInfo)) (msg : List Char)
    (fails : Nat → Bool) (i : Nat) :
    (bcastFrom l msg fails i).2.1 + (bcastFrom l msg fails i).2.2 = l.length := by
  induction l generalizing i with
  | nil => simp [bcastFrom]
  | cons p rest ih =>
    obtain ⟨n, ci⟩ := p
    have h := ih (i + 1)
    by_cases hf : fails i
    · simp only [bcastFrom, if_pos hf, List.length_cons]
      omega
    · simp only [bcastFrom, if_neg hf, List.length_cons]
      omega

theorem broadcastActions_no_tcpSend (dir : Dir) (msg : List Char) (s : Nat)
    (m : List Char) : Action.tcpSend s m ∉ broadcastActions dir msg := by
  intro hm
  rcases List.mem_map.mp hm with ⟨e, _, he⟩
  exact Action.noConfusion he

/-! ### Lock-trace lemmas -/

theorem countSendsHeld_replicate (n : Nat) :
    countSendsHeld (List.replicate n Ev.netSend ++ [Ev.lockRelease]) true = n := by
  induction n with
  | zero => simp [countSendsHeld]
  | succ k ih => simp [List.replicate, countSendsHeld, ih, Nat.add_comm]

theorem countSends_replicate (n : Nat) :
    countSends (List.replicate n Ev.netSend ++ [Ev.lockRelease]) = n := by
  induction n with
  | zero => simp [countSends]
  | succ k ih => simp [List.replicate, countSends, ih]

/-! ### Lifecycle invariant lemmas -/

theorem dirInv_init : DirInv initState := by
  intro name sid
  simp [initState, alookup]

theorem sidInv_init : SidInv initState := by
  intro sid n1 n2 h1
  simp [initState] at h1

theorem inv_reg {st st' : SessState} {sid : Nat} {name : Ident}
    (hg : sstep st (SEvent.reg sid name) = some st')
    (hfresh : alookup st.dir name = none)
    (hd : DirInv st) (hs : SidInv st) : DirInv st' ∧ SidInv st' := by
  have hguard : alookup st.active sid = none := by
    cases hact : alookup st.active sid with
    | none => rfl
    | some _ => simp [sstep, hact] at hg
  have hst' : st' = ⟨ainsert st.dir name sid, (sid, name) :: st.active⟩ := by
    have h2 := hg
    simp only [sstep, hguard, Option.some.injEq] at h2
    exact h2.symm
  subst hst'
  refine ⟨?_, ?_⟩
  · intro n i
    show alookup (ainsert st.dir name sid) n = some i ↔
      (i, n) ∈ (sid, name) :: st.active
    rw [alookup_ainsert, List.mem_cons]
    by_cases hn : name = n
    · subst hn
      rw [if_pos rfl]
      constructor
      · intro h
        injection h with h
        subst h
        exact Or.inl rfl
      · rintro (heq | hm)
        · have hi : i = sid := congrArg Prod.fst heq
          rw [hi]
        · have hcontr : alookup st.dir name = some i := (hd name i).mpr hm
          rw [hfresh] at hcontr
          cases hcontr
    · rw [if_neg hn, hd n i]
      constructor
      · exact fun hm => Or.inr hm
      · rintro (heq | hm)
        · have hnn : n = name := congrArg Prod.snd heq
          exact absurd hnn.symm hn
        · exact hm
  · intro i n1 n2 h1 h2
    have h1' : (i, n1) ∈ (sid, name) :: st.active := h1
    have h2' : (i, n2) ∈ (sid, name) :: st.active := h2
    have hnot := alookup_none_not_mem hguard
    rcases List.mem_cons.mp h1' with he1 | hm1 <;>
      rcases List.mem_cons.mp h2' with he2 | hm2
    · have a1 : n1 = name := congrArg Prod.snd he1
      have a2 : n2 = name := congrArg Prod.snd he2
      rw [a1, a2]
    · have a1 : i = sid := congrArg Prod.fst he1
      subst a1
      exact absurd hm2 (hnot n2)
    · have a2 : i = sid := congrArg Prod.fst he2
      subst a2
      exact absurd hm1 (hnot n1)
    · exact hs i n1 n2 hm1 hm2

theorem inv_disc {st st' : SessState} {sid : Nat}
    (hg : sstep st (SEvent.disc sid) = some st')
    (hd : DirInv st) (hs : SidInv st) : DirInv st' ∧ SidInv st' := by
  obtain ⟨name, hguard⟩ : ∃ n, alookup st.active sid = some n := by
    cases hact : alookup st.active sid with
    | none => simp [sstep, hact] at hg
    | some n => exact ⟨n, rfl⟩
  have hst' : st' = ⟨aerase st.dir name, aerase st.active sid⟩ := by
    have h2 := hg
    simp only [sstep, hguard, Option.some.injEq] at h2
    exact h2.symm
  subst hst'
  have hmem : (sid, name) ∈ st.active := alookup_some_mem hguard
  refine ⟨?_, ?_⟩
  · intro n i
    show alookup (aerase st.dir name) n = some i ↔ (i, n) ∈ aerase st.active sid
    rw [alookup_aerase, mem_aerase]
    by_cases hn : name = n
    · subst hn
      rw [if_pos rfl]
      constructor
      · intro h; cases h
      · rintro ⟨hm, hne⟩
        have hi : alookup st.dir name = some i := (hd name i).mpr hm
        have hsid : alookup st.dir name = some sid := (hd name sid).mpr hmem
        rw [hi] at hsid
        injection hsid with hsid
        exact absurd hsid hne
    · rw [if_neg hn, hd n i]
      constructor
      · intro hm
        refine ⟨hm, fun hi => ?_⟩
        have hisid : i = sid := hi
        subst hisid
        exact hn (hs i name n hmem hm)
      · exact fun h => h.1
  · intro i n1 n2 h1 h2
    have h1' : (i, n1) ∈ aerase st.active sid := h1
    have h2' : (i, n2) ∈ aerase st.active sid := h2
    rw [mem_aerase] at h1' h2'
    exact hs i n1 n2 h1'.1 h2'.1

theorem srun_inv (es : List SEvent) :
    ∀ st0 st : SessState, DirInv st0 → SidInv st0 →
      freshRunB st0 es = true → srun st0 es = some st → DirInv st ∧ SidInv st := by
  induction es with
  | nil =>
    intro st0 st hd hs _ hr
    simp [srun] at hr
    exact hr ▸ ⟨hd, hs⟩
  | cons e es ih =>
    intro st0 st hd hs hf hr
    cases hstep : sstep st0 e with
    | none => simp [srun, hstep] at hr
    | some st' =>
      have hr' : srun st' es = some st := by
        simpa [srun, hstep] using hr
      have hnext : DirInv st' ∧ SidInv st' ∧ freshRunB st' es = true := by
        cases e with
        | reg sid name =>
          have hf' := hf
          simp only [freshRunB, hstep] at hf'
          rw [Bool.and_eq_true] at hf'
          obtain ⟨hf1, hf2⟩ := hf'
          have hfresh : alookup st0.dir name = none :=
            Option.isNone_iff_eq_none.mp hf1
          have hi := inv_reg hstep hfresh hd hs
          exact ⟨hi.1, hi.2, hf2⟩
        | disc sid =>
          have hf' := hf
          simp only [freshRunB, hstep] at hf'
          have hi := inv_disc hstep hd hs
          exact ⟨hi.1, hi.2, hf'⟩
      exact ih st' st hnext.1 hnext.2.1 hnext.2.2 hr'

/-! ### Claim C1: directed routing correctness -/

/-- C1 counterexample: the claim fails as stated when the registered
destination identity is the reserved token itself.  With `X` and
`BROADCAST` both registered, `X` routing the payload `BROADCAST:hi`
triggers the datagram fan-out: the write list holds only UDP datagrams,
and no `FROM X: hi` stream write to BROADCAST's socket (socket 2) is
performed, though BROADCAST is a registered identity. -/
theorem c1_counterexample :
    (route_tcp_message
        [(chars "X", ⟨1, chars "X", 0, 7⟩),
         (chars "BROADCAST", ⟨2, chars "BROADCAST", 0, 8⟩)]
        (chars "X") (chars "BROADCAST:hi")).2
      = [Action.udpSend 0 7 (chars "BROADCAST FROM X: hi"),
         Action.udpSend 0 8 (chars "BROADCAST FROM X: hi")] ∧
    Action.tcpSend 2 (chars "FROM X: hi") ∉
      (route_tcp_message
        [(chars "X", ⟨1, chars "X", 0, 7⟩),
         (chars "BROADCAST", ⟨2, chars "BROADCAST", 0, 8⟩)]
        (chars "X") (chars "BROADCAST:hi")).2 := by
  decide

/-- C1 (amended): for registered identities A and B with B distinct from
the reserved token BROADCAST, routing the payload `B:<content>` from A
writes exactly one message, `FROM <A>: <content>`, to B's stream socket,
leaves the Directory unchanged, and writes to no other registered
identity's socket. -/
theorem c1_routing_amended (dir : Dir) (A B content : List Char)
    (ia ib : ClientInfo)
    (hA : alookup dir A = some ia) (hB : alookup dir B = some ib)
    (hBc : ':' ∉ B) (hBb : B ≠ chars "BROADCAST") :
    route_tcp_message dir A (B ++ ':' :: content)
      = (dir, [Action.tcpSend ib.tcp_socket
          (chars "FROM " ++ A ++ chars ": " ++ content)]) ∧
    ∀ C ic, alookup dir C = some ic → ic.tcp_socket ≠ ib.tcp_socket →
      ∀ m, Action.tcpSend ic.tcp_socket m ∉
        (route_tcp_message dir A (B ++ ':' :: content)).2 := by
  have hsplit := splitColon_append B content hBc
  have hroute : route_tcp_message dir A (B ++ ':' :: content)
      = (dir, [Action.tcpSend ib.tcp_socket
          (chars "FROM " ++ A ++ chars ": " ++ content)]) := by
    unfold route_tcp_message
    rw [hsplit]
    simp only [if_neg hBb, hB]
  refine ⟨hroute, ?_⟩
  intro C ic hC hne m hm
  rw [hroute] at hm
  simp only [List.mem_singleton] at hm
  injection hm with h1 h2
  exact hne h1

/-- C1 witness: the amended theorem applied to a concrete Directory in
which `A` (socket 1) and `B` (socket 2) are registered. -/
theorem c1_routing_amended_witness :
    route_tcp_message
        [(chars "A", ⟨1, chars "A", 0, 7⟩), (chars "B", ⟨2, chars "B", 0, 8⟩)]
        (chars "A") (chars "B" ++ ':' :: chars "hello")
      = ([(chars "A", ⟨1, chars "A", 0, 7⟩), (chars "B", ⟨2, chars "B", 0, 8⟩)],
         [Action.tcpSend 2
           (chars "FROM " ++ chars "A" ++ chars ": " ++ chars "hello")]) :=
  (c1_routing_amended
    [(chars "A", ⟨1, chars "A", 0, 7⟩), (chars "B", ⟨2, chars "B", 0, 8⟩)]
    (chars "A") (chars "B") (chars "hello")
    ⟨1, chars "A", 0, 7⟩ ⟨2, chars "B", 0, 8⟩
    (by decide) (by decide) (by decide) (by decide)).1

/-! ### Claim C2: registration handshake failure condition -/

/-- C2 counterexample: the claim says registration fails exactly when the
payload has no colon or the port segment is not a valid positive
integer.  For the first payload `A:-7` the port segment `-7` is not a
valid positive integer, yet the handshake succeeds (std::stoi parses
`-7`), so the claimed equivalence is false. -/
theorem c2_counterexample :
    (handle_client_register [] 3 0 (chars "A:-7")).registered = true ∧
    splitColon (chars "A:-7") = some (chars "A", chars "-7") ∧
    validPositiveIntSegmentB (chars "-7") = false := by
  decide

/-- C2 (amended): the handshake fails — no Directory entry, no reply, the
connection's socket closed — exactly when the first payload has no colon
separator or `std::stoi` cannot parse the port segment (no leading
integer after optional whitespace and sign, or out of int range);
otherwise the entry is inserted and the welcome confirmation is sent. -/
theorem c2_registration_amended (dir : Dir) (sock host : Nat)
    (payload : List Char) :
    ((handle_client_register dir sock host payload).registered = false
      ↔ splitColon payload = none ∨
        ∃ n ps, splitColon payload = some (n, ps) ∧ stoiModel ps = none) ∧
    ((handle_client_register dir sock host payload).registered = false →
      (handle_client_register dir sock host payload).newDir = dir ∧
      (handle_client_register dir sock host payload).reply = none ∧
      (handle_client_register dir sock host payload).closedSockets = [sock]) ∧
    (∀ n ps p, splitColon payload = some (n, ps) → stoiModel ps = some p →
      (handle_client_register dir sock host payload).newDir
        = ainsert dir n ⟨sock, n, host, p⟩ ∧
      (handle_client_register dir sock host payload).reply
        = some (welcomeMsg n) ∧
      (handle_client_register dir sock host payload).closedSockets = [] ∧
      (handle_client_register dir sock host payload).registered = true) := by
  cases hsplit : splitColon payload with
  | none =>
    refine ⟨?_, ?_, ?_⟩
    · simp [handle_client_register, hsplit]
    · intro _
      simp [handle_client_register, hsplit]
    · intro n ps p hs hp
      cases hs
  | some pr =>
    obtain ⟨n0, ps0⟩ := pr
    cases hstoi : stoiModel ps0 with
    | none =>
      refine ⟨?_, ?_, ?_⟩
      · constructor
        · intro _
          exact Or.inr ⟨n0, ps0, rfl, hstoi⟩
        · intro _
          simp [handle_client_register, hsplit, hstoi]
      · intro _
        simp [handle_client_register, hsplit, hstoi]
      · intro n ps p hs hp
        injection hs with hs
        have hps : ps0 = ps := congrArg Prod.snd hs
        rw [← hps, hstoi] at hp
        cases hp
    | some p0 =>
      refine ⟨?_, ?_, ?_⟩
      · constructor
        · intro hreg
          exfalso
          simp [handle_client_register, hsplit, hstoi] at hreg
        · rintro (hnone | ⟨n, ps, hs, hp⟩)
          · cases hnone
          · injection hs with hs
            have hps : ps0 = ps := congrArg Prod.snd hs
            rw [← hps, hstoi] at hp
            cases hp
      · intro hreg
        exfalso
        simp [handle_client_register, hsplit, hstoi] at hreg
      · intro n ps p hs hp
        injection hs with hs
        have hn : n0 = n := congrArg Prod.fst hs
        have hps : ps0 = ps := congrArg Prod.snd hs
        subst hn
        subst hps
        rw [hstoi] at hp
        injection hp with hp
        subst hp
        simp [handle_client_register, hsplit, hstoi]

/-- C2 witness: the amended theorem applied to the separator-free first
payload `A`: registration fails, the Directory stays empty and the
connection's socket (3) is closed. -/
theorem c2_registration_amended_witness :
    (handle_client_register [] 3 0 (chars "A")).registered = false ∧
    (handle_client_register [] 3 0 (chars "A")).newDir = [] ∧
    (handle_client_register [] 3 0 (chars "A")).closedSockets = [3] := by
  have h := c2_registration_amended [] 3 0 (chars "A")
  have hf : (handle_client_register [] 3 0 (chars "A")).registered = false :=
    h.1.mpr (Or.inl (by decide))
  exact ⟨hf, (h.2.1 hf).1, (h.2.1 hf).2.2⟩

/-! ### Claim C3: Directory entry iff session active -/

/-- C3 counterexample: session 1 registers `A`, session 2 registers `A`
(the map assignment silently overwrites), then session 1 disconnects and
erases the `A` binding.  Session 2 is still active and registered under
`A`, but the Directory no longer has an entry for it — the claimed
entry-iff-active invariant is violated by this register/disconnect
sequence. -/
theorem c3_counterexample :
    srun initState
        [SEvent.reg 1 (chars "A"), SEvent.reg 2 (chars "A"), SEvent.disc 1]
      = some ⟨[], [(2, chars "A")]⟩ ∧
    ¬ DirInv ⟨[], [(2, chars "A")]⟩ := by
  refine ⟨by decide, ?_⟩
  intro h
  have h2 : alookup (⟨[], [(2, chars "A")]⟩ : SessState).dir (chars "A") = some 2 :=
    (h (chars "A") 2).mpr (by decide)
  cases h2

/-- C3 (amended): for every run of registrations and disconnects in which
each registration uses a name not currently in the Directory (no
duplicate-name registration), the invariant holds at every reachable
state: the Directory binds a name to a session exactly when that session
is live and registered under that name; in particular each disconnect
removes exactly the disconnecting session's entry. -/
theorem c3_lifecycle_amended (es : List SEvent) (st : SessState)
    (hf : freshRunB initState es = true) (hr : srun initState es = some st) :
    DirInv st :=
  (srun_inv es initState st dirInv_init sidInv_init hf hr).1

/-- C3 witness: the amended theorem applied to the duplicate-free run in
which session 1 registers `A`, session 2 registers `B` and session 1
disconnects; the resulting state keeps exactly `B ↦ 2`. -/
theorem c3_lifecycle_amended_witness :
    freshRunB initState
        [SEvent.reg 1 (chars "A"), SEvent.reg 2 (chars "B"), SEvent.disc 1]
      = true ∧
    DirInv ⟨[(chars "B", 2)], [(2, chars "B")]⟩ :=
  ⟨by decide,
   c3_lifecycle_amended
     [SEvent.reg 1 (chars "A"), SEvent.reg 2 (chars "B"), SEvent.disc 1]
     ⟨[(chars "B", 2)], [(2, chars "B")]⟩ (by decide) (by decide)⟩

/-! ### Claim C4: duplicate registration policy -/

/-- C4 counterexample: with `A` registered on socket 42, a second
registration `A:6000` on socket 50 neither rejects (the Directory
changes: `A` now maps to the new entry) nor closes the superseded
session's stream handle (the handler closes no socket), so the claimed
reject-or-overwrite-and-close disjunction is false. -/
theorem c4_counterexample :
    (handle_client_register [(chars "A", ⟨42, chars "A", 9, 7⟩)] 50 8
        (chars "A:6000")).newDir
      ≠ [(chars "A", ⟨42, chars "A", 9, 7⟩)] ∧
    alookup (handle_client_register [(chars "A", ⟨42, chars "A", 9, 7⟩)] 50 8
        (chars "A:6000")).newDir (chars "A") = some ⟨50, chars "A", 8, 6000⟩ ∧
    (handle_client_register [(chars "A", ⟨42, chars "A", 9, 7⟩)] 50 8
        (chars "A:6000")).closedSockets = [] := by
  decide

/-- C4 (amended): a registration for an identity that is already
registered silently overwrites the prior entry — afterwards the identity
maps to the new session's entry — and the superseded session's stream
handle is NOT closed (the handshake closes no socket on success). -/
theorem c4_duplicate_amended (dir : Dir) (sock host : Nat)
    (name portStr : List Char) (old : ClientInfo) (p : Int)
    (hdup : alookup dir name = some old) (hp : stoiModel portStr = some p)
    (hc : ':' ∉ name) :
    (handle_client_register dir sock host (name ++ ':' :: portStr)).registered
      = true ∧
    alookup (handle_client_register dir sock host
        (name ++ ':' :: portStr)).newDir name = some ⟨sock, name, host, p⟩ ∧
    (handle_client_register dir sock host
        (name ++ ':' :: portStr)).closedSockets = [] := by
  have hsplit := splitColon_append name portStr hc
  refine ⟨?_, ?_, ?_⟩ <;>
    simp [handle_client_register, hsplit, hp, alookup_ainsert]

/-- C4 witness: the amended theorem applied to a Directory holding `A` on
socket 42 and a duplicate registration of `A` from socket 50. -/
theorem c4_duplicate_amended_witness :
    (handle_client_register [(chars "A", ⟨42, chars "A", 9, 7⟩)] 50 8
        (chars "A" ++ ':' :: chars "6000")).registered = true ∧
    alookup (handle_client_register [(chars "A", ⟨42, chars "A", 9, 7⟩)] 50 8
        (chars "A" ++ ':' :: chars "6000")).newDir (chars "A")
      = some ⟨50, chars "A", 8, 6000⟩ ∧
    (handle_client_register [(chars "A", ⟨42, chars "A", 9, 7⟩)] 50 8
        (chars "A" ++ ':' :: chars "6000")).closedSockets = [] :=
  c4_duplicate_amended [(chars "A", ⟨42, chars "A", 9, 7⟩)] 50 8
    (chars "A") (chars "6000") ⟨42, chars "A", 9, 7⟩ 6000
    (by decide) (by decide) (by decide)

/-! ### Claim C9: identities are non-empty -/

/-- C9 counterexample: the first payload `:5000`, whose colon separator
is at position 0, DOES produce a Directory entry — the handshake never
checks the identity segment, so the empty identity is registered. -/
theorem c9_counterexample :
    (handle_client_register [] 7 0 (chars ":5000")).registered = true ∧
    alookup (handle_client_register [] 7 0 (chars ":5000")).newDir []
      = some ⟨7, [], 0, 5000⟩ := by
  decide

/-- C9 (amended): the Registration Handshake places no non-emptiness
restriction on the identity: every first payload whose colon separator
is at position 0 and whose port segment parses registers an entry under
the empty identity. -/
theorem c9_empty_identity_amended (dir : Dir) (sock host : Nat)
    (portStr : List Char) (p : Int) (hp : stoiModel portStr = some p) :
    (handle_client_register dir sock host (':' :: portStr)).registered = true ∧
    alookup (handle_client_register dir sock host (':' :: portStr)).newDir []
      = some ⟨sock, [], host, p⟩ := by
  have hsplit : splitColon (':' :: portStr) = some ([], portStr) := by
    simp [splitColon]
  refine ⟨?_, ?_⟩ <;> simp [handle_client_register, hsplit, hp, alookup_ainsert]

/-- C9 witness: the amended theorem applied to the payload `:5000` on an
empty Directory. -/
theorem c9_empty_identity_amended_witness :
    (handle_client_register [] 7 0 (':' :: chars "5000")).registered = true ∧
    alookup (handle_client_register [] 7 0 (':' :: chars "5000")).newDir []
      = some ⟨7, [], 0, 5000⟩ :=
  c9_empty_identity_amended [] 7 0 (chars "5000") 5000 (by decide)

/-! ### Claim C5: broadcast fan-out -/

/-- C5: for every message and Directory with N entries, the broadcast
attempts exactly one datagram carrying the message to each entry's
datagram address — independently of which sends fail, so one failure
never aborts the rest — and the success and failure counts it computes
sum to N, the number of attempts. -/
theorem c5_broadcast_fanout (dir : Dir) (msg : List Char) (fails : Nat → Bool) :
    (send_udp_broadcast dir msg fails).1 = broadcastActions dir msg ∧
    (send_udp_broadcast dir msg fails).1
      = dir.map (fun e => Action.udpSend e.2.udp_host e.2.udp_port msg) ∧
    ((send_udp_broadcast dir msg fails).1).length = dir.length ∧
    (send_udp_broadcast dir msg fails).2.1
        + (send_udp_broadcast dir msg fails).2.2 = dir.length := by
  have hacts := bcastFrom_acts dir msg fails 0
  have hcounts := bcastFrom_counts dir msg fails 0
  refine ⟨hacts, hacts, ?_, hcounts⟩
  show (bcastFrom dir msg fails 0).1.length = dir.length
  rw [hacts, List.length_map]

/-! ### Claim C6: malformed post-registration payload is dropped -/

/-- C6: a post-registration payload with no colon separator is dropped:
nothing is written to any stream, the Directory is unchanged, and the
session continues — processing the malformed payload followed by a
well-formed `B:<content>` still delivers `FROM <A>: <content>` to B. -/
theorem c6_malformed_dropped (dir : Dir) (A bad B content : List Char)
    (ib : ClientInfo) (hbad : ':' ∉ bad)
    (hB : alookup dir B = some ib) (hBb : B ≠ chars "BROADCAST")
    (hBc : ':' ∉ B) :
    route_tcp_message dir A bad = (dir, []) ∧
    session_loop dir A [bad, B ++ ':' :: content]
      = (dir, [Action.tcpSend ib.tcp_socket
          (chars "FROM " ++ A ++ chars ": " ++ content)]) := by
  have h1 : route_tcp_message dir A bad = (dir, []) := by
    unfold route_tcp_message
    rw [splitColon_eq_none bad hbad]
  have h2 : route_tcp_message dir A (B ++ ':' :: content)
      = (dir, [Action.tcpSend ib.tcp_socket
          (chars "FROM " ++ A ++ chars ": " ++ content)]) := by
    unfold route_tcp_message
    rw [splitColon_append B content hBc]
    simp only [if_neg hBb, hB]
  exact ⟨h1, by simp [session_loop, h1, h2]⟩

/-- C6 witness: with `B` registered on socket 2, the payload `nocolon`
is dropped and the follow-up `B:hello` still routes. -/
theorem c6_malformed_dropped_witness :
    route_tcp_message [(chars "B", ⟨2, chars "B", 0, 8⟩)] (chars "A")
        (chars "nocolon")
      = ([(chars "B", ⟨2, chars "B", 0, 8⟩)], []) ∧
    session_loop [(chars "B", ⟨2, chars "B", 0, 8⟩)] (chars "A")
        [chars "nocolon", chars "B" ++ ':' :: chars "hello"]
      = ([(chars "B", ⟨2, chars "B", 0, 8⟩)],
         [Action.tcpSend 2
           (chars "FROM " ++ chars "A" ++ chars ": " ++ chars "hello")]) :=
  c6_malformed_dropped [(chars "B", ⟨2, chars "B", 0, 8⟩)] (chars "A")
    (chars "nocolon") (chars "B") (chars "hello") ⟨2, chars "B", 0, 8⟩
    (by decide) (by decide) (by decide) (by decide)

/-! ### Claim C7: unknown destination notice -/

/-- C7: routing `Z:<content>` where Z is neither BROADCAST nor registered
writes exactly the not-active notice to the sender's own stream when the
sender is registered, writes nothing at all when the sender's entry is
absent, and the session continues — a subsequent well-formed message
still routes. -/
theorem c7_unknown_destination (dir : Dir) (A Z content B content2 : List Char)
    (ia ib : ClientInfo)
    (hZc : ':' ∉ Z) (hZb : Z ≠ chars "BROADCAST")
    (hZ : alookup dir Z = none) (hA : alookup dir A = some ia)
    (hB : alookup dir B = some ib) (hBb : B ≠ chars "BROADCAST")
    (hBc : ':' ∉ B) :
    route_tcp_message dir A (Z ++ ':' :: content)
      = (dir, [Action.tcpSend ia.tcp_socket (notActiveMsg Z)]) ∧
    (∀ A2, alookup dir A2 = none →
      route_tcp_message dir A2 (Z ++ ':' :: content) = (dir, [])) ∧
    session_loop dir A [Z ++ ':' :: content, B ++ ':' :: content2]
      = (dir, [Action.tcpSend ia.tcp_socket (notActiveMsg Z),
               Action.tcpSend ib.tcp_socket
                 (chars "FROM " ++ A ++ chars ": " ++ content2)]) := by
  have hsplit := splitColon_append Z content hZc
  have h1 : route_tcp_message dir A (Z ++ ':' :: content)
      = (dir, [Action.tcpSend ia.tcp_socket (notActiveMsg Z)]) := by
    unfold route_tcp_message
    rw [hsplit]
    simp only [if_neg hZb, hZ, hA]
  have h2 : route_tcp_message dir A (B ++ ':' :: content2)
      = (dir, [Action.tcpSend ib.tcp_socket
          (chars "FROM " ++ A ++ chars ": " ++ content2)]) := by
    unfold route_tcp_message
    rw [splitColon_append B content2 hBc]
    simp only [if_neg hBb, hB]
  refine ⟨h1, ?_, ?_⟩
  · intro A2 hA2
    unfold route_tcp_message
    rw [hsplit]
    simp only [if_neg hZb, hZ, hA2]
  · simp [session_loop, h1, h2]

/-- C7 witness: with only `A` (socket 1) and `B` (socket 2) registered,
`Z:hi` sent by A yields exactly the notice on A's own socket. -/
theorem c7_unknown_destination_witness :
    route_tcp_message
        [(chars "A", ⟨1, chars "A", 0, 7⟩), (chars "B", ⟨2, chars "B", 0, 8⟩)]
        (chars "A") (chars "Z" ++ ':' :: chars "hi")
      = ([(chars "A", ⟨1, chars "A", 0, 7⟩), (chars "B", ⟨2, chars "B", 0, 8⟩)],
         [Action.tcpSend 1 (notActiveMsg (chars "Z"))]) :=
  (c7_unknown_destination
    [(chars "A", ⟨1, chars "A", 0, 7⟩), (chars "B", ⟨2, chars "B", 0, 8⟩)]
    (chars "A") (chars "Z") (chars "hi") (chars "B") (chars "yo")
    ⟨1, chars "A", 0, 7⟩ ⟨2, chars "B", 0, 8⟩
    (by decide) (by decide) (by decide) (by decide) (by decide) (by decide)
    (by decide)).1

/-! ### Claim C10: a client registered as BROADCAST is unreachable -/

/-- C10: the handshake accepts the identity `BROADCAST` (the entry is
created like any other), yet the router checks the broadcast token
before the Directory lookup, so every payload addressed to `BROADCAST`
triggers the datagram fan-out and never a stream write — in particular
no stream write to the socket registered under that name ever occurs. -/
theorem c10_broadcast_identity (dir : Dir) (sock host : Nat)
    (portStr : List Char) (p : Int) (dir2 : Dir) (sender content : List Char)
    (ci : ClientInfo)
    (hp : stoiModel portStr = some p)
    (hreg : alookup dir2 (chars "BROADCAST") = some ci) :
    (handle_client_register dir sock host
        (chars "BROADCAST" ++ ':' :: portStr)).registered = true ∧
    alookup (handle_client_register dir sock host
        (chars "BROADCAST" ++ ':' :: portStr)).newDir (chars "BROADCAST")
      = some ⟨sock, chars "BROADCAST", host, p⟩ ∧
    route_tcp_message dir2 sender (chars "BROADCAST" ++ ':' :: content)
      = (dir2, broadcastActions dir2
          (chars "BROADCAST FROM " ++ sender ++ chars ": " ++ content)) ∧
    ∀ m, Action.tcpSend ci.tcp_socket m ∉
      (route_tcp_message dir2 sender (chars "BROADCAST" ++ ':' :: content)).2 := by
  have hcol : ':' ∉ chars "BROADCAST" := by decide
  have hsplit := splitColon_append (chars "BROADCAST") portStr hcol
  have hsplit2 := splitColon_append (chars "BROADCAST") content hcol
  have hroute : route_tcp_message dir2 sender
      (chars "BROADCAST" ++ ':' :: content)
      = (dir2, broadcastActions dir2
          (chars "BROADCAST FROM " ++ sender ++ chars ": " ++ content)) := by
    unfold route_tcp_message
    rw [hsplit2]
    simp
  refine ⟨?_, ?_, hroute, ?_⟩
  · simp [handle_client_register, hsplit, hp]
  · simp [handle_client_register, hsplit, hp, alookup_ainsert]
  · intro m hm
    rw [hroute] at hm
    exact broadcastActions_no_tcpSend dir2 _ _ _ hm

/-- C10 witness: registering `BROADCAST:5000` succeeds, and with a
`BROADCAST` entry on socket 2 the payload `BROADCAST:hi` fans out. -/
theorem c10_broadcast_identity_witness :
    (handle_client_register [] 3 0
        (chars "BROADCAST" ++ ':' :: chars "5000")).registered = true ∧
    route_tcp_message [(chars "BROADCAST", ⟨2, chars "BROADCAST", 0, 8⟩)]
        (chars "X") (chars "BROADCAST" ++ ':' :: chars "hi")
      = ([(chars "BROADCAST", ⟨2, chars "BROADCAST", 0, 8⟩)],
         broadcastActions [(chars "BROADCAST", ⟨2, chars "BROADCAST", 0, 8⟩)]
           (chars "BROADCAST FROM " ++ chars "X" ++ chars ": " ++ chars "hi")) :=
  ⟨(c10_broadcast_identity [] 3 0 (chars "5000") 5000
      [(chars "BROADCAST", ⟨2, chars "BROADCAST", 0, 8⟩)] (chars "X")
      (chars "hi") ⟨2, chars "BROADCAST", 0, 8⟩ (by decide) (by decide)).1,
   (c10_broadcast_identity [] 3 0 (chars "5000") 5000
      [(chars "BROADCAST", ⟨2, chars "BROADCAST", 0, 8⟩)] (chars "X")
      (chars "hi") ⟨2, chars "BROADCAST", 0, 8⟩ (by decide) (by decide)).2.2.1⟩

/-! ### Claim C8: no network I/O under the Directory lock -/

/-- C8 counterexample: in `send_udp_broadcast` the `lock_guard` is taken
at function entry and every `sendto` happens inside its scope.  On a
one-entry Directory the trace performs one network send and that send
happens while the lock is held, refuting the claim that no network I/O
is ever performed under the Directory lock (and with it the claimed
copy-snapshot-then-release behaviour). -/
theorem c8_counterexample :
    countSendsHeld (broadcastTrace [(chars "A", ⟨1, chars "A", 0, 7⟩)]) false
      = 1 ∧
    countSends (broadcastTrace [(chars "A", ⟨1, chars "A", 0, 7⟩)]) = 1 := by
  decide

/-- C8 (amended): the code follows the opposite discipline: every network
send of the broadcast fan-out and of directed routing (routed delivery
and not-active notice alike) is performed while the Directory lock is
held — the sends-under-lock count always equals the total send count of
the trace. -/
theorem c8_locking_amended (dir : Dir) (sender full : List Char) :
    countSendsHeld (broadcastTrace dir) false = countSends (broadcastTrace dir) ∧
    countSendsHeld (routeTrace dir sender full) false
      = countSends (routeTrace dir sender full) := by
  have hb : ∀ d : Dir,
      countSendsHeld (broadcastTrace d) false = countSends (broadcastTrace d) := by
    intro d
    have h1 : countSendsHeld (broadcastTrace d) false
        = countSendsHeld
            (List.replicate d.length Ev.netSend ++ [Ev.lockRelease]) true := rfl
    have h2 : countSends (broadcastTrace d)
        = countSends (List.replicate d.length Ev.netSend ++ [Ev.lockRelease]) :=
      rfl
    rw [h1, h2, countSendsHeld_replicate, countSends_replicate]
  refine ⟨hb dir, ?_⟩
  cases hsplit : splitColon full with
  | none =>
    have ht : routeTrace dir sender full = [] := by
      simp [routeTrace, hsplit]
    rw [ht]
    decide
  | some pr =>
    obtain ⟨destination, content⟩ := pr
    by_cases hbc : destination = chars "BROADCAST"
    · have ht : routeTrace dir sender full = broadcastTrace dir := by
        simp [routeTrace, hsplit, hbc]
      rw [ht]
      exact hb dir
    · cases hdest : alookup dir destination with
      | some ci =>
        have ht : routeTrace dir sender full
            = [Ev.lockAcquire, Ev.netSend, Ev.lockRelease] := by
          simp [routeTrace, hsplit, hbc, hdest]
        rw [ht]
        decide
      | none =>
        cases hsend : alookup dir sender with
        | some si =>
          have ht : routeTrace dir sender full
              = [Ev.lockAcquire, Ev.netSend, Ev.lockRelease] := by
            simp [routeTrace, hsplit, hbc, hdest, hsend]
          rw [ht]
          decide
        | none =>
          have ht : routeTrace dir sender full
              = [Ev.lockAcquire, Ev.lockRelease] := by
            simp [routeTrace, hsplit, hbc, hdest, hsend]
          rw [ht]
          decide

end IES
